import Mathlib

/-!
Shallow embedding of the `sqlutils` package (`src/sqlutils/sqlutils.go`):
the cell / row / result-set data model, the JSON encoding of cells, the
typed getters over named rows, the scanning pipeline, the three query
strategies, the prepared-statement executor, the database-handle cache and
the table restore helper.

Modelling conventions:
* Go maps are association lists with overwrite-on-insert semantics.
* Machine integers: `uint`/`uint64` values are `Nat` with explicit
  reduction modulo `2 ^ 64` where a Go conversion truncates; `int`/`int64`
  values are `Int`.
* A Go panic is a distinguished error constructor which the
  `defer`/`recover` boundaries of the source convert into an ordinary
  error value.
* The database driver is an explicit outcome value: a query either fails
  with an error (the returned `*sql.Rows` is nil) or yields a cursor
  holding the column names (and whether `Columns()` errors) and the
  underlying records, each record being a list of nullable strings.
-/

namespace sqlutils

/-- Alias for the builtin string type, needed inside the `CellData`
namespace where the field name `CellData.String` shadows it. -/
abbrev GoString := String

/-- One column value in one row: Go `type CellData sql.NullString`, a struct
with fields `String string` and `Valid bool` (`Valid = false` ⇔ SQL NULL). -/
structure CellData where
  String : String
  Valid : Bool
deriving DecidableEq, Repr

/-- The JSON values relevant to the cell encoding (`encoding/json` data). -/
inductive Json where
  | null
  | str (s : String)
  | num (n : Int)
  | boolean (b : Bool)
deriving DecidableEq, Repr

/-- Go `func (this *CellData) MarshalJSON() ([]byte, error)`:
`json.Marshal(this.String)` for a valid cell, `json.Marshal(nil)` (the JSON
null literal) otherwise.  Marshalling a string or nil never errors, so the
error result is omitted. -/
def CellData.MarshalJSON (this : CellData) : Json :=
  if this.Valid then Json.str this.String else Json.null

/-- Go `json.Unmarshal(b, &s)` for `s : string` with current value `s0`:
a JSON string overwrites `s`; a JSON null leaves the value unchanged and
reports no error (documented `encoding/json` behaviour); any other JSON
value is a type error. -/
def goUnmarshalString (b : Json) (s0 : String) : String × Option String :=
  match b with
  | Json.str s => (s, none)
  | Json.null => (s0, none)
  | _ => (s0, some "json: cannot unmarshal value into Go value of type string")

/-- Go `func (this *CellData) UnmarshalJSON(b []byte) error`: declares
`var s string` (zero value `""`), runs `json.Unmarshal(b, &s)`, returns the
error on failure (receiver unchanged), otherwise sets `String = s` and
`Valid = true`.  Result: (receiver after the call, returned error). -/
def CellData.UnmarshalJSON (this : CellData) (b : Json) : CellData × Option GoString :=
  match goUnmarshalString b "" with
  | (s, none) => (⟨s, true⟩, none)
  | (_, some e) => (this, some e)

/-! ### Go association-map primitives (model of `map[string]V`) -/

/-- Lookup in a Go map modelled as an association list. -/
def goMapLookup {α : Type} : List (String × α) → String → Option α
  | [], _ => none
  | (k0, v) :: rest, k => if k0 = k then some v else goMapLookup rest k

/-- Insert into a Go map: overwrite the binding if the key is present,
append a new binding otherwise. -/
def goMapInsert {α : Type} : List (String × α) → String → α → List (String × α)
  | [], k, v => [(k, v)]
  | (k0, v0) :: rest, k, v =>
    if k0 = k then (k, v) :: rest else (k0, v0) :: goMapInsert rest k v

/-- Go `type RowMap map[string]CellData`. -/
abbrev RowMap := List (String × CellData)

/-- Reading `(*this)[key]` from a Go map yields the zero value
`CellData{String: "", Valid: false}` when the key is missing. -/
def goMapGet (m : RowMap) (key : String) : CellData :=
  match goMapLookup m key with
  | some c => c
  | none => ⟨"", false⟩

/-! ### `strconv` model (base 10, 64-bit platform)

`strconv.ParseUint(s, 10, 0)` and `strconv.Atoi` on a 64-bit platform:
`uint`/`int` are 64 bits wide.  On a syntax error the functions return
value `0`; on a range error they return the clamped extremum together with
the range error. -/

inductive ParseErr where
  | synErr
  | rangeErr
deriving DecidableEq, Repr

def maxUint64 : Nat := 2 ^ 64 - 1

/-- `cutoff` of `strconv.ParseUint` for base 10: the smallest `n` such that
`n * 10` exceeds `maxUint64`. -/
def uintCutoff : Nat := maxUint64 / 10 + 1

/-- The digit loop of `strconv.ParseUint` (base 10, maxVal `2^64 - 1`):
a non-digit is an immediate syntax error with value 0; if the accumulator
would overflow, the loop stops with the clamped maximum and a range error. -/
def parseUintLoop : List Char → Nat → Nat × Option ParseErr
  | [], n => (n, none)
  | c :: rest, n =>
    if c.isDigit then
      if uintCutoff ≤ n then (maxUint64, some ParseErr.rangeErr)
      else
        let n1 := n * 10 + (c.toNat - 48)
        if maxUint64 < n1 then (maxUint64, some ParseErr.rangeErr)
        else parseUintLoop rest n1
    else (0, some ParseErr.synErr)

/-- Go `strconv.ParseUint(s, 10, 0)` (bit size 0 = platform `uint` = 64
bits).  No sign prefix is permitted; the empty string is a syntax error. -/
def ParseUint (s : String) : Nat × Option ParseErr :=
  match s.data with
  | [] => (0, some ParseErr.synErr)
  | cs => parseUintLoop cs 0

/-- Go `strconv.ParseInt(s, 10, 0)` (bit size 0 = platform `int` = 64
bits): strips one optional sign, parses the rest with `ParseUint`, then
applies the signed cutoff `2^63`: a non-negative value `≥ 2^63` clamps to
`2^63 - 1` with a range error; a negated magnitude `> 2^63` clamps to
`-2^63` with a range error. -/
def ParseInt (s : String) : Int × Option ParseErr :=
  match s.data with
  | [] => (0, some ParseErr.synErr)
  | c :: cs =>
    let neg : Bool := c = '-'
    let digits := if c = '-' ∨ c = '+' then cs else c :: cs
    match digits with
    | [] => (0, some ParseErr.synErr)
    | _ :: _ =>
      let r := parseUintLoop digits 0
      match r.2 with
      | some ParseErr.synErr => (0, some ParseErr.synErr)
      | _ =>
        if neg = false ∧ 2 ^ 63 ≤ r.1 then ((2 ^ 63 - 1 : Nat), some ParseErr.rangeErr)
        else if neg = true ∧ 2 ^ 63 < r.1 then (-(2 ^ 63), some ParseErr.rangeErr)
        else (if neg then -(r.1 : Int) else (r.1 : Int), none)

/-- Go `strconv.Atoi(s)`: identical in behaviour to
`strconv.ParseInt(s, 10, 0)` (the small-string fast path cannot change the
result). -/
def Atoi (s : String) : Int × Option ParseErr :=
  ParseInt s

/-- The Go conversion `uint(i)` for `i : int` on a 64-bit platform:
two's-complement reduction modulo `2^64`. -/
def uintOfInt (i : Int) : Nat :=
  (i % (2 ^ 64 : Int)).toNat

/-! ### Typed getters on `RowMap` (the ones the claims are about) -/

/-- Go `func (this *RowMap) GetString(key string) string`. -/
def RowMap.GetString (this : RowMap) (key : String) : String :=
  (goMapGet this key).String

/-- Go `GetUint`: `res, _ := strconv.ParseUint(this.GetString(key), 10, 0);
return uint(res)` — the error is discarded, the (possibly clamped) value is
returned. -/
def RowMap.GetUint (this : RowMap) (key : String) : Nat :=
  (ParseUint (RowMap.GetString this key)).1

/-- Go `GetUintD`: `res, err := strconv.Atoi(this.GetString(key))` — note
the SIGNED parse — `if err != nil { return def }; return uint(res)`. -/
def RowMap.GetUintD (this : RowMap) (key : String) (dflt : Nat) : Nat :=
  let r := Atoi (RowMap.GetString this key)
  match r.2 with
  | some _ => dflt
  | none => uintOfInt r.1

/-- Go `GetUint64`: `res, _ := strconv.ParseUint(this.GetString(key), 10, 0);
return res`. -/
def RowMap.GetUint64 (this : RowMap) (key : String) : Nat :=
  (ParseUint (RowMap.GetString this key)).1

/-- Go `GetUint64D`: `res, err := strconv.ParseUint(this.GetString(key), 10, 0);
if err != nil { return def }; return uint64(res)`. -/
def RowMap.GetUint64D (this : RowMap) (key : String) (dflt : Nat) : Nat :=
  let r := ParseUint (RowMap.GetString this key)
  match r.2 with
  | some _ => dflt
  | none => r.1

/-! ### Rows, result sets, and the driver cursor -/

/-- Go `type RowData []CellData`. -/
abbrev RowData := List CellData

/-- Go `type ResultData []RowData`. -/
abbrev ResultData := List RowData

/-- Go `var EmptyResultData = ResultData{}`. -/
def EmptyResultData : ResultData := []

/-- Go `type NamedResultData struct { Columns []string; Data ResultData }`. -/
structure NamedResultData where
  Columns : List String
  Data : ResultData
deriving DecidableEq, Repr

/-- Go `func (this *CellData) NullString() *sql.NullString`: the cast of the
cell to `sql.NullString` (the same underlying struct). -/
def CellData.NullString (this : CellData) : CellData :=
  this

/-- Go `func (this *RowData) Args() []interface{}`: the cells exposed in
order in their nullable-string form, for parameter binding. -/
def RowData.Args (this : RowData) : List CellData :=
  this.map (fun c => c.NullString)

/-- Errors in the Go error-value discipline of the source.  `errNoRows` is
`sql.ErrNoRows`; `panicked` is a Go panic value propagating up the stack
(not an error return); `converted` is the error manufactured from a
recovered panic at a `defer`/`recover` boundary. -/
inductive GoError where
  | errNoRows
  | other (msg : String)
  | panicked (msg : String)
  | converted (msg : String)
deriving DecidableEq, Repr

/-- The message of the runtime panic raised by dereferencing a nil pointer
(for example calling `rows.Close()` or `rows.Columns()` on a nil
`*sql.Rows`). -/
def nilDerefMsg : String := "runtime error: invalid memory address or nil pointer dereference"

/-- The message of the runtime panic raised by `columns[k]` with `k` out of
range. -/
def indexRangeMsg : String := "runtime error: index out of range"

/-- At a `defer func() { if derr := recover(); ... }()` boundary named
`fname`, a propagating panic is converted into the error
`"<fname> unexpected error: <panic value>"`; error returns pass through. -/
def convertPanic (fname : String) : Option GoError → Option GoError
  | some (GoError.panicked msg) => some (GoError.converted (fname ++ " unexpected error: " ++ msg))
  | e => e

/-- Modelled from the spec: `log.Errore` — the logging collaborator from the
repository's `log` package (not under `src/`) — "reports the failure to the
logging collaborator before returning it": it records the error it is given
and returns that same error.  Result: (log records emitted, returned
error). -/
def logErrore (e : GoError) : List GoError × GoError :=
  ([e], e)

/-- A non-nil `*sql.Rows` cursor: the column names (`cols`, with `colsErr`
recording whether `rows.Columns()` fails), and the underlying records, each
a list of nullable strings. -/
structure Rows where
  cols : List String
  colsErr : Bool
  recs : List (List (Option String))
deriving DecidableEq, Repr

/-- Go `columns, _ := rows.Columns()`: on error, `Columns` returns a nil
slice and the error is discarded. -/
def goColumns (rows : Rows) : List String :=
  if rows.colsErr then [] else rows.cols

/-- Scanning one driver value into a `*sql.NullString` slot: NULL gives
`Valid = false`, a value gives the text with `Valid = true`. -/
def scanCell : Option String → CellData
  | some s => ⟨s, true⟩
  | none => ⟨"", false⟩

/-- Go `RowToArray(rows, columns)`: allocates `len(columns)` zero-valued
`NullString` slots, calls `rows.Scan(buff...)` DISCARDING its error, and
returns the slots.  A scan failure (modelled: the record's column count
differs from `len(columns)`) leaves every slot at its zero value, so the
returned row is all absent cells. -/
def RowToArray (columns : List String) (rec : List (Option String)) : List CellData :=
  if rec.length = columns.length then rec.map scanCell
  else List.replicate columns.length ⟨"", false⟩

/-- The `for rows.Next()` loop of `ScanRowsToArrays`: each record is mapped
through `RowToArray` and handed to `on_row`; a sink error stops the loop
immediately and is returned.  The first component is the trace of rows
delivered to the sink, in order. -/
def scanLoop (columns : List String) (on_row : List CellData → Option GoError) :
    List (List (Option String)) → List (List CellData) × Option GoError
  | [] => ([], none)
  | rec :: rest =>
    let arr := RowToArray columns rec
    match on_row arr with
    | some e => ([arr], some e)
    | none =>
      let r := scanLoop columns on_row rest
      (arr :: r.1, r.2)

/-- Go `ScanRowsToArrays(rows, on_row)`: `columns, _ := rows.Columns()`
(error discarded), then the scan loop.  Returns the trace of delivered rows
and the returned error. -/
def ScanRowsToArrays (rows : Rows) (on_row : List CellData → Option GoError) :
    List (List CellData) × Option GoError :=
  scanLoop (goColumns rows) on_row rows.recs

/-- Go `rowToMap`: `for k, data_col := range row { m[columns[k]] = data_col }`.
Iterating over `row` while indexing `columns[k]` consumes the two lists in
lockstep; `none` models the index-out-of-range panic raised when `row` is
longer than `columns`. -/
def rowToMapGo : RowMap → List CellData → List String → Option RowMap
  | m, [], _ => some m
  | _, _ :: _, [] => none
  | m, c :: rrest, col :: crest => rowToMapGo (goMapInsert m col c) rrest crest

/-- Go `rowToMap(row, columns)`: builds `m := make(map[string]CellData)` and
fills it. -/
def rowToMap (row : List CellData) (columns : List String) : Option RowMap :=
  rowToMapGo [] row columns

/-- The closure `ScanRowsToMaps` passes to `ScanRowsToArrays`: pair the
positional row with the column names and hand it to `on_row`; the
impossible-by-construction index panic propagates as a panic value. -/
def mapSink (columns : List String) (on_row : RowMap → Option GoError)
    (arr : List CellData) : Option GoError :=
  match rowToMap arr columns with
  | some m => on_row m
  | none => some (GoError.panicked indexRangeMsg)

/-- Go `ScanRowsToMaps(rows, on_row)`: `columns, _ := rows.Columns()` (error
discarded), then `ScanRowsToArrays` with `mapSink`.  The first component is
the trace of named rows delivered to `on_row`. -/
def ScanRowsToMaps (rows : Rows) (on_row : RowMap → Option GoError) :
    List RowMap × Option GoError :=
  let columns := goColumns rows
  let r := ScanRowsToArrays rows (mapSink columns on_row)
  (r.1.filterMap (fun arr => rowToMap arr columns), r.2)

/-- The outcome of `db.QueryContext(ctx, query, args...)`: either a non-nil
cursor with nil error, or a nil cursor with a non-nil error. -/
inductive QueryOutcome where
  | ok (rows : Rows)
  | fail (e : GoError)
deriving DecidableEq, Repr

/-- Go `QueryRowsMapContext`: on a query error other than `sql.ErrNoRows`
the error is logged and returned (the nil cursor is NOT closed thanks to
the `rows != nil` guard); on `sql.ErrNoRows` the code proceeds into
`ScanRowsToMaps` on the nil cursor, panics, and the `recover` boundary
converts the panic; otherwise the scan runs and a propagating panic is
converted at the boundary.  Returns (trace of named rows delivered to
`on_row`, returned error). -/
def QueryRowsMapContext (q : QueryOutcome) (on_row : RowMap → Option GoError) :
    List RowMap × Option GoError :=
  match q with
  | QueryOutcome.fail e =>
    if e = GoError.errNoRows then
      ([], some (GoError.converted ("QueryRowsMapContext unexpected error: " ++ nilDerefMsg)))
    else ([], some (logErrore e).2)
  | QueryOutcome.ok rows =>
    let r := ScanRowsToMaps rows on_row
    (r.1, convertPanic "QueryRowsMapContext" r.2)

/-- The named results of Go `queryResultDataContext`:
`(resultData ResultData, columns []string, err error)`. -/
structure QRDResult where
  resultData : ResultData
  columns : List String
  err : Option GoError
deriving DecidableEq, Repr

/-- Go `queryResultDataContext`: `defer rows.Close()` is registered even
when the query failed and the cursor is nil, so on ANY query failure the
deferred `Close` dereferences the nil cursor, panics, and the `recover`
boundary replaces the query error with a converted unexpected-error value
(on the `sql.ErrNoRows` branch the nil dereference happens earlier, in
`rows.Columns()`, with the same recovered message).  On success the cursor
is drained through `ScanRowsToArrays` with an appending sink, retrieving
column names only when `retrieveColumns` is set. -/
def queryResultDataContext (q : QueryOutcome) (retrieveColumns : Bool) : QRDResult :=
  match q with
  | QueryOutcome.fail _ =>
    { resultData := []
      columns := []
      err := some (GoError.converted ("queryResultDataContext unexpected error: " ++ nilDerefMsg)) }
  | QueryOutcome.ok rows =>
    let columns := if retrieveColumns then goColumns rows else []
    let r := ScanRowsToArrays rows (fun _ => none)
    { resultData := r.1, columns := columns, err := convertPanic "queryResultDataContext" r.2 }

/-- Go `QueryResultDataContext`: bulk rows without column names. -/
def QueryResultDataContext (q : QueryOutcome) : ResultData × Option GoError :=
  let r := queryResultDataContext q false
  (r.resultData, r.err)

/-- Go `QueryNamedResultDataContext`: bulk rows with column names. -/
def QueryNamedResultDataContext (q : QueryOutcome) : NamedResultData × Option GoError :=
  let r := queryResultDataContext q true
  ({ Columns := r.columns, Data := r.resultData }, r.err)

/-- The `for _, row := range resultData` loop of
`QueryRowsMapBufferedContext`: pairs each buffered positional row with the
column names and hands it to `on_row`, stopping at the first sink error.
This function has no `recover` boundary, so the (impossible here) pairing
panic would propagate uncaught. -/
def bufferedLoop (on_row : RowMap → Option GoError) (columns : List String) :
    ResultData → List RowMap × Option GoError
  | [] => ([], none)
  | row :: rest =>
    match rowToMap row columns with
    | none => ([], some (GoError.panicked indexRangeMsg))
    | some m =>
      match on_row m with
      | some e => ([m], some e)
      | none =>
        let r := bufferedLoop on_row columns rest
        (m :: r.1, r.2)

/-- Go `QueryRowsMapBufferedContext`: first drains the cursor via
`queryResultDataContext` (with column names), returns its error if any,
then replays the buffered rows through `on_row`.  Returns (trace of named
rows delivered to `on_row`, returned error). -/
def QueryRowsMapBufferedContext (q : QueryOutcome) (on_row : RowMap → Option GoError) :
    List RowMap × Option GoError :=
  let r := queryResultDataContext q true
  match r.err with
  | some e => ([], some e)
  | none => bufferedLoop on_row r.columns r.resultData

/-! ### Statement executor -/

/-- The driver behaviour seen by one `execInternalContext` call: the outcome
of `db.PrepareContext` and, if preparation succeeds, of
`stmt.ExecContext`. -/
structure ExecEnv where
  prepareErr : Option GoError
  execErr : Option GoError
deriving DecidableEq, Repr

/-- The observable outcome of one `execInternalContext` call: whether a
result value was produced, the returned error, whether a prepared statement
was created, whether it was closed, and the errors reported to the logging
collaborator. -/
structure ExecOutcome where
  ok : Bool
  err : Option GoError
  prepared : Bool
  closed : Bool
  logged : List GoError
deriving DecidableEq, Repr

/-- Go `execInternalContext(ctx, silent, db, query, args...)`: a prepare
failure is returned immediately (no statement was created, nothing is
logged); on prepare success `defer stmt.Close()` guarantees the statement
is closed on both remaining exit paths; an execute failure is reported via
`log.Errore` unless `silent`, and returned. -/
def execInternalContext (silent : Bool) (env : ExecEnv) : ExecOutcome :=
  match env.prepareErr with
  | some e =>
    { ok := false, err := some e, prepared := false, closed := false, logged := [] }
  | none =>
    match env.execErr with
    | some e =>
      { ok := false, err := some e, prepared := true, closed := true,
        logged := if silent then [] else (logErrore e).1 }
    | none =>
      { ok := true, err := none, prepared := true, closed := true, logged := [] }

/-- Go `ExecContext`: `execInternalContext` with `silent = false`. -/
def ExecContext (env : ExecEnv) : ExecOutcome :=
  execInternalContext false env

/-- Go `ExecSilentlyContext`: `execInternalContext` with `silent = true`. -/
def ExecSilentlyContext (env : ExecEnv) : ExecOutcome :=
  execInternalContext true env

/-! ### Table restore -/

/-- The query template of `WriteTableContext`:
`replace into <table> (<c1>,...,<cn>) values (?,...,?)` with one `?` per
column. -/
def writeTableQuery (tableName : String) (columns : List String) : String :=
  "replace into " ++ tableName ++ " (" ++ String.intercalate "," columns ++
    ") values (" ++ String.intercalate "," (List.replicate columns.length "?") ++ ")"

/-- The `for _, rowData := range data.Data` loop of `WriteTableContext`.
`execErr i` is the outcome of the `i`-th `db.ExecContext` call (the driver
may answer each call differently).  Every row is attempted; a failing row
overwrites `err` but does not stop the loop.  The first component is the
trace of executed statements, `(query, bound arguments)` per row in
order. -/
def writeRowsLoop (execErr : Nat → Option GoError) (query : String) :
    Nat → List RowData → Option GoError → List (String × List CellData) × Option GoError
  | _, [], err => ([], err)
  | i, rowData :: rest, err =>
    let e := execErr i
    let err1 := match e with
      | some ex => some ex
      | none => err
    let r := writeRowsLoop execErr query (i + 1) rest err1
    ((query, RowData.Args rowData) :: r.1, r.2)

/-- Go `WriteTableContext(ctx, db, tableName, data)`: returns nil
immediately when the row list or the column list is empty; otherwise builds
the replace-into template once and executes it once per row, remembering
the last execution failure.  Returns (trace of executed statements,
returned error). -/
def WriteTableContext (execErr : Nat → Option GoError) (tableName : String)
    (data : NamedResultData) : List (String × List CellData) × Option GoError :=
  if data.Data.length = 0 then ([], none)
  else if data.Columns.length = 0 then ([], none)
  else writeRowsLoop execErr (writeTableQuery tableName data.Columns) 0 data.Data none

/-- "The failure of the last row whose execution failed": folds the per-call
outcomes, keeping the most recent failure. -/
def lastExecFailure (execErr : Nat → Option GoError) (n : Nat) : Option GoError :=
  (List.range n).foldl
    (fun acc i =>
      match execErr i with
      | some e => some e
      | none => acc)
    none

/-! ### Handle cache -/

/-- The process-wide state behind `knownDBs`: the uri-keyed handle map and a
counter generating a fresh handle identity for each successful
`sql.Open`. -/
structure CacheState where
  knownDBs : List (String × Nat)
  nextHandle : Nat
deriving DecidableEq, Repr

/-- The three results of `GetGenericDB`: the handle (`*sql.DB`, `none` when
open failed), the `exists` flag (whether the handle came from the cache),
and the error. -/
structure GetDBResult where
  db : Option Nat
  cached : Bool
  err : Option GoError
deriving DecidableEq, Repr

/-- Go `GetGenericDB(driverName, dataSourceName)`: the whole body runs under
`knownDBsMutex`, so calls are modelled sequentially.  The cache is keyed by
`dataSourceName` ONLY.  `sql.Open` outcomes are given by `openOk`; each
successful open stores and returns the fresh handle `nextHandle`. -/
def GetGenericDB (openOk : String → String → Bool) (driverName dataSourceName : String)
    (st : CacheState) : GetDBResult × CacheState :=
  match goMapLookup st.knownDBs dataSourceName with
  | some h => ({ db := some h, cached := true, err := none }, st)
  | none =>
    if openOk driverName dataSourceName then
      ({ db := some st.nextHandle, cached := false, err := none },
        { knownDBs := goMapInsert st.knownDBs dataSourceName st.nextHandle,
          nextHandle := st.nextHandle + 1 })
    else
      ({ db := none, cached := false, err := some (GoError.other "sql.Open error") }, st)

/-- Go `GetDB(mysql_uri)`: `GetGenericDB("mysql", mysql_uri)`. -/
def GetDB (openOk : String → String → Bool) (mysql_uri : String) (st : CacheState) :
    GetDBResult × CacheState :=
  GetGenericDB openOk "mysql" mysql_uri st

/-- Go `GetSQLiteDB(dbFile)`: `GetGenericDB("sqlite3", dbFile)`. -/
def GetSQLiteDB (openOk : String → String → Bool) (dbFile : String) (st : CacheState) :
    GetDBResult × CacheState :=
  GetGenericDB openOk "sqlite3" dbFile st

/-- A sequence of `GetGenericDB` calls, each a (driverName, dataSourceName)
pair, run left to right through the cache state. -/
def runCalls (openOk : String → String → Bool) :
    List (String × String) → CacheState → List GetDBResult × CacheState
  | [], st => ([], st)
  | (d, dsn) :: rest, st =>
    let r := GetGenericDB openOk d dsn st
    let rr := runCalls openOk rest r.2
    (r.1 :: rr.1, rr.2)

/-! ### Specification-side helper definitions (used only in theorem
statements and witnesses) -/

/-- Folding a list of call outcomes, keeping the most recent `some`. -/
def lastSomeList : List (Option GoError) → Option GoError → Option GoError
  | [], e => e
  | o :: rest, e =>
    lastSomeList rest
      (match o with
        | some x => some x
        | none => e)

/-- One base-10 accumulation step, `n * 10 + digit`. -/
def decimalStep (n : Nat) (c : Char) : Nat :=
  n * 10 + (c.toNat - 48)

/-- The numeric value of a list of decimal digit characters. -/
def decimalVal (cs : List Char) : Nat :=
  cs.foldl decimalStep 0

/-- A concrete two-row driver outcome used by the C2 witness. -/
def witnessQuery : QueryOutcome :=
  QueryOutcome.ok ⟨["a", "b"], false, [[some "1", none], [some "2", some "x"]]⟩

/-! ## Helper lemmas: Go map primitives -/

theorem goMapLookup_insert_self {α : Type} (m : List (String × α)) (k : String) (v : α) :
    goMapLookup (goMapInsert m k v) k = some v := by
  induction m with
  | nil => simp [goMapInsert, goMapLookup]
  | cons p rest ih =>
    obtain ⟨k0, v0⟩ := p
    by_cases h : k0 = k
    · simp [goMapInsert, h, goMapLookup]
    · simp [goMapInsert, h, goMapLookup, ih]

theorem goMapLookup_insert_ne {α : Type} (m : List (String × α)) (k k2 : String) (v : α)
    (h : ¬ k = k2) :
    goMapLookup (goMapInsert m k v) k2 = goMapLookup m k2 := by
  induction m with
  | nil => simp [goMapInsert, goMapLookup, h]
  | cons p rest ih =>
    obtain ⟨k0, v0⟩ := p
    by_cases h0 : k0 = k
    · subst h0
      simp [goMapInsert, goMapLookup, h]
    · simp [goMapInsert, h0, goMapLookup, ih]

theorem goMapInsert_lookup_none {α : Type} (m : List (String × α)) (k : String) (v : α)
    (h : goMapLookup m k = none) :
    goMapInsert m k v = m ++ [(k, v)] := by
  induction m with
  | nil => simp [goMapInsert]
  | cons p rest ih =>
    obtain ⟨k0, v0⟩ := p
    by_cases h0 : k0 = k
    · simp [goMapLookup, h0] at h
    · simp only [goMapLookup, h0, if_false] at h
      simp [goMapInsert, h0, ih h]

theorem goMapLookup_append_left_none {α : Type} (m l : List (String × α)) (k : String)
    (h : goMapLookup m k = none) :
    goMapLookup (m ++ l) k = goMapLookup l k := by
  induction m with
  | nil => simp
  | cons p rest ih =>
    obtain ⟨k0, v0⟩ := p
    by_cases h0 : k0 = k
    · simp [goMapLookup, h0] at h
    · simp only [goMapLookup, h0, if_false] at h
      simpa [goMapLookup, h0] using ih h

/-! ## C1: JSON round trip of cells -/

/-- C1 counterexample: the absent cell `{String: "", Valid: false}` encodes to
JSON null, but decoding that null yields the PRESENT cell
`{String: "", Valid: true}` (Go `json.Unmarshal` of null into a string is a
no-op with no error, and `UnmarshalJSON` then unconditionally sets
`Valid = true`), so the round trip does not restore the absent flag. -/
theorem cellJSON_roundtrip_counterexample :
    CellData.UnmarshalJSON ⟨"", false⟩ (CellData.MarshalJSON ⟨"", false⟩) =
      ((⟨"", true⟩ : CellData), none) ∧
    ¬ ((⟨"", true⟩ : CellData) = (⟨"", false⟩ : CellData)) :=
  ⟨rfl, by decide⟩

/-- C1 (amended): decoding the JSON encoding of a present cell restores it
exactly, and decoding any JSON string yields a present cell holding that
exact text; but decoding the JSON null produced by an absent cell yields the
PRESENT cell with empty text, not an absent cell.  Uniformly: for every cell
`c` (and any receiver state `r`), the round trip returns
`{String: if c.Valid then c.String else "", Valid: true}` with no error. -/
theorem cellJSON_roundtrip_amended (c r : CellData) (s : String) :
    CellData.UnmarshalJSON r (CellData.MarshalJSON c) =
      ((⟨if c.Valid then c.String else "", true⟩ : CellData), none) ∧
    CellData.UnmarshalJSON r (Json.str s) = ((⟨s, true⟩ : CellData), none) := by
  constructor
  · obtain ⟨str, v⟩ := c
    cases v <;> simp [CellData.MarshalJSON, CellData.UnmarshalJSON, goUnmarshalString]
  · rfl

/-! ## C6: positional-to-named pairing -/

theorem rowToMapGo_spec (row : List CellData) : ∀ (cols : List String) (m : RowMap),
    cols.Nodup → row.length = cols.length → (∀ k ∈ cols, goMapLookup m k = none) →
    rowToMapGo m row cols = some (m ++ cols.zip row) := by
  induction row with
  | nil =>
    intro cols m _ hlen _
    cases cols with
    | nil => simp [rowToMapGo]
    | cons c cs => simp at hlen
  | cons c rrest ih =>
    intro cols m hnd hlen hnone
    cases cols with
    | nil => simp at hlen
    | cons col crest =>
      have hcol : goMapLookup m col = none := hnone col (by simp)
      have hins : goMapInsert m col c = m ++ [(col, c)] :=
        goMapInsert_lookup_none _ _ _ hcol
      have hnd2 : crest.Nodup := (List.nodup_cons.mp hnd).2
      have hcolnot : col ∉ crest := (List.nodup_cons.mp hnd).1
      have hlen2 : rrest.length = crest.length := by simpa using hlen
      have hnone2 : ∀ k ∈ crest, goMapLookup (m ++ [(col, c)]) k = none := by
        intro k hk
        have hne : ¬ col = k := fun e => hcolnot (e ▸ hk)
        have h1 : goMapLookup m k = none := hnone k (by simp [hk])
        rw [goMapLookup_append_left_none _ _ _ h1]
        simp [goMapLookup, hne]
      have hrec := ih crest (m ++ [(col, c)]) hnd2 hlen2 hnone2
      show rowToMapGo (goMapInsert m col c) rrest crest = _
      rw [hins, hrec]
      simp

theorem goMapLookup_zip (cols : List String) : ∀ (row : List CellData), cols.Nodup →
    ∀ i (h1 : i < cols.length) (h2 : i < row.length),
      goMapLookup (cols.zip row) cols[i] = some row[i] := by
  induction cols with
  | nil => intro row _ i h1 _; simp at h1
  | cons col crest ih =>
    intro row hnd i h1 h2
    cases row with
    | nil => simp at h2
    | cons r rrest =>
      cases i with
      | zero =>
        show goMapLookup ((col, r) :: crest.zip rrest) col = some r
        simp [goMapLookup]
      | succ j =>
        have hj1 : j < crest.length := by simpa using h1
        have hj2 : j < rrest.length := by simpa using h2
        have hmem : crest[j] ∈ crest := List.getElem_mem hj1
        have hne : ¬ col = crest[j] := by
          intro e
          exact (List.nodup_cons.mp hnd).1 (e ▸ hmem)
        show goMapLookup ((col, r) :: crest.zip rrest) crest[j] = some rrest[j]
        simp [goMapLookup, hne, ih rrest (List.nodup_cons.mp hnd).2 j hj1 hj2]

/-- C6 counterexample: with the length-2 column sequence `["a", "a"]`
(duplicated name) and two distinct cells, the produced Go map has a single
key, not 2, and the cell stored under the 0-th column name is the second
positional cell, not the first. -/
theorem rowToMap_duplicate_columns_counterexample :
    rowToMap [⟨"1", true⟩, ⟨"2", true⟩] ["a", "a"] =
      some [("a", (⟨"2", true⟩ : CellData))] ∧
    [("a", (⟨"2", true⟩ : CellData))].length = 1 ∧
    ¬ (goMapLookup [("a", (⟨"2", true⟩ : CellData))] "a" = some ⟨"1", true⟩) :=
  ⟨rfl, rfl, by decide⟩

/-- C6 (amended): for every positional row with N cells and every sequence of
N PAIRWISE-DISTINCT column names, `rowToMap` produces exactly the zip of the
names with the cells: a map with exactly N keys, whose key list is the column
sequence itself, and in which the cell stored under the i-th column name is
the i-th positional cell.  (With duplicated column names later cells
overwrite earlier ones and the map has fewer than N keys.) -/
theorem rowToMap_pairing (row : List CellData) (columns : List String)
    (hlen : row.length = columns.length) (hnd : columns.Nodup) :
    rowToMap row columns = some (columns.zip row) ∧
    (columns.zip row).map Prod.fst = columns ∧
    (columns.zip row).length = columns.length ∧
    ∀ i (h1 : i < columns.length) (h2 : i < row.length),
      goMapLookup (columns.zip row) columns[i] = some row[i] := by
  refine ⟨?_, ?_, ?_, goMapLookup_zip columns row hnd⟩
  · have h := rowToMapGo_spec row columns [] hnd hlen (fun k _ => rfl)
    simpa [rowToMap] using h
  · exact List.map_fst_zip _ _ hlen.symm.le
  · simp [List.length_zip, hlen]

/-- Witness for C6: a concrete two-column pairing, including a NULL cell. -/
theorem rowToMap_pairing_witness :
    rowToMap [⟨"x", true⟩, ⟨"", false⟩] ["a", "b"] =
      some [("a", (⟨"x", true⟩ : CellData)), ("b", (⟨"", false⟩ : CellData))] := by
  have h := rowToMap_pairing [⟨"x", true⟩, ⟨"", false⟩] ["a", "b"] rfl (by decide)
  exact h.1

/-! ## C8: prepared-statement executor -/

/-- C8 counterexample: with `silent = false`, a prepare failure is returned to
the caller while NOTHING is reported to the logging collaborator,
contradicting the claim that every returned failure is logged first. -/
theorem execInternal_prepare_unlogged_counterexample :
    (execInternalContext false ⟨some (GoError.other "prep"), none⟩).err =
      some (GoError.other "prep") ∧
    (execInternalContext false ⟨some (GoError.other "prep"), none⟩).logged = [] :=
  ⟨rfl, rfl⟩

/-- C8 (amended): the prepared statement is released exactly on the exit
paths on which one was created (prepare success), and — when `silent` is
false — an EXECUTE failure is reported to the logging collaborator before
being returned; but a PREPARE failure is returned to the caller without
being reported, and nothing else is ever logged. -/
theorem execInternal_release_and_logging (silent : Bool) (env : ExecEnv) :
    (execInternalContext silent env).closed = (execInternalContext silent env).prepared ∧
    ((execInternalContext silent env).prepared = true ↔ env.prepareErr = none) ∧
    (∀ e, env.prepareErr = some e →
      execInternalContext silent env =
        { ok := false, err := some e, prepared := false, closed := false, logged := [] }) ∧
    (∀ e, env.prepareErr = none → env.execErr = some e →
      (execInternalContext silent env).err = some e ∧
      (execInternalContext silent env).logged = if silent then [] else [e]) ∧
    (env.prepareErr = none → env.execErr = none →
      execInternalContext silent env =
        { ok := true, err := none, prepared := true, closed := true, logged := [] }) := by
  obtain ⟨pe, ee⟩ := env
  cases pe <;> cases ee <;> simp [execInternalContext, logErrore]

/-- Witness for C8: a loud execute failure is both logged and returned. -/
theorem execInternal_release_and_logging_witness :
    (execInternalContext false ⟨none, some (GoError.other "x")⟩).err =
      some (GoError.other "x") ∧
    (execInternalContext false ⟨none, some (GoError.other "x")⟩).logged =
      [GoError.other "x"] := by
  have h := (execInternal_release_and_logging false ⟨none, some (GoError.other "x")⟩).2.2.2.1
    (GoError.other "x") rfl rfl
  exact ⟨h.1, h.2⟩

/-! ## C3 / C9: handle cache -/

theorem getGenericDB_hit (openOk : String → String → Bool) (d dsn : String)
    (st : CacheState) (h : Nat) (hl : goMapLookup st.knownDBs dsn = some h) :
    GetGenericDB openOk d dsn st = ({ db := some h, cached := true, err := none }, st) := by
  unfold GetGenericDB
  rw [hl]

theorem getGenericDB_preserves (openOk : String → String → Bool) (d dsn : String)
    (st : CacheState) (key : String) (h : Nat)
    (hl : goMapLookup st.knownDBs key = some h) :
    goMapLookup (GetGenericDB openOk d dsn st).2.knownDBs key = some h := by
  unfold GetGenericDB
  cases hc : goMapLookup st.knownDBs dsn with
  | some h0 => simpa using hl
  | none =>
    by_cases hop : openOk d dsn = true
    · have hne : ¬ dsn = key := by
        intro e
        rw [e, hl] at hc
        exact Option.noConfusion hc
      simp only [hop, if_true]
      rw [goMapLookup_insert_ne st.knownDBs dsn key st.nextHandle hne]
      exact hl
    · simp only [hop, if_false]
      exact hl

theorem runCalls_preserves (openOk : String → String → Bool)
    (calls : List (String × String)) : ∀ (st : CacheState) (key : String) (h : Nat),
    goMapLookup st.knownDBs key = some h →
    goMapLookup (runCalls openOk calls st).2.knownDBs key = some h := by
  induction calls with
  | nil => intro st key h hl; exact hl
  | cons p rest ih =>
    intro st key h hl
    obtain ⟨d, dsn⟩ := p
    exact ih _ key h (getGenericDB_preserves openOk d dsn st key h hl)

theorem runCalls_hit (openOk : String → String → Bool)
    (calls : List (String × String)) : ∀ (st : CacheState) (dsn : String) (h : Nat)
    (i : Nat) (d2 : String),
    goMapLookup st.knownDBs dsn = some h →
    calls[i]? = some (d2, dsn) →
    (runCalls openOk calls st).1[i]? =
      some { db := some h, cached := true, err := none } := by
  induction calls with
  | nil => intro st dsn h i d2 _ hcall; simp at hcall
  | cons p rest ih =>
    intro st dsn h i d2 hl hcall
    obtain ⟨d, dsn0⟩ := p
    cases i with
    | zero =>
      simp only [List.getElem?_cons_zero, Option.some.injEq, Prod.mk.injEq] at hcall
      obtain ⟨-, hdsn⟩ := hcall
      subst hdsn
      show ((GetGenericDB openOk d dsn0 st).1 ::
        (runCalls openOk rest (GetGenericDB openOk d dsn0 st).2).1)[0]? = _
      rw [getGenericDB_hit openOk d dsn0 st h hl]
      simp
    | succ j =>
      simp only [List.getElem?_cons_succ] at hcall
      show ((GetGenericDB openOk d dsn0 st).1 ::
        (runCalls openOk rest (GetGenericDB openOk d dsn0 st).2).1)[j+1]? = _
      rw [List.getElem?_cons_succ]
      exact ih _ dsn h j d2 (getGenericDB_preserves openOk d dsn0 st dsn h hl) hcall

/-- C3: the handle cache creates at most one handle per distinct
data-source-name and only grows.  (i) A call for an already-cached
data-source-name returns exactly the stored handle with `wasCached = true`,
leaving the state (including the fresh-handle counter, i.e. no open)
untouched; (ii) the first successful call for an uncached name opens and
stores a fresh handle and reports `wasCached = false`; (iii) a single call
never removes or replaces an existing entry; (iv) ditto for every sequence
of calls; (v) in every sequence of calls, every call whose data-source-name
is already cached returns exactly the stored handle with
`wasCached = true`. -/
theorem handleCache_at_most_once (openOk : String → String → Bool)
    (d dsn : String) (st : CacheState) :
    (∀ h, goMapLookup st.knownDBs dsn = some h →
      GetGenericDB openOk d dsn st = ({ db := some h, cached := true, err := none }, st)) ∧
    (goMapLookup st.knownDBs dsn = none → openOk d dsn = true →
      (GetGenericDB openOk d dsn st).1 =
        { db := some st.nextHandle, cached := false, err := none } ∧
      goMapLookup (GetGenericDB openOk d dsn st).2.knownDBs dsn = some st.nextHandle) ∧
    (∀ key h, goMapLookup st.knownDBs key = some h →
      goMapLookup (GetGenericDB openOk d dsn st).2.knownDBs key = some h) ∧
    (∀ (calls : List (String × String)) (key : String) (h : Nat),
      goMapLookup st.knownDBs key = some h →
      goMapLookup (runCalls openOk calls st).2.knownDBs key = some h) ∧
    (∀ (calls : List (String × String)) (i : Nat) (d2 : String) (h : Nat),
      goMapLookup st.knownDBs dsn = some h →
      calls[i]? = some (d2, dsn) →
      (runCalls openOk calls st).1[i]? =
        some { db := some h, cached := true, err := none }) := by
  refine ⟨fun h hl => getGenericDB_hit openOk d dsn st h hl, ?_,
    fun key h hl => getGenericDB_preserves openOk d dsn st key h hl,
    fun calls key h hl => runCalls_preserves openOk calls st key h hl,
    fun calls i d2 h hl hcall => runCalls_hit openOk calls st dsn h i d2 hl hcall⟩
  intro hnone hop
  unfold GetGenericDB
  rw [hnone]
  simp only [hop, if_true]
  exact ⟨trivial, goMapLookup_insert_self st.knownDBs dsn st.nextHandle⟩

/-- Witness for C3: a cached name is returned as-is with `wasCached = true`
and the state unchanged, and after a first successful call a repeat call in
a sequence sees the cached handle. -/
theorem handleCache_at_most_once_witness :
    GetGenericDB (fun _ _ => true) "mysql" "u" ⟨[("u", 5)], 6⟩ =
      ({ db := some 5, cached := true, err := none }, ⟨[("u", 5)], 6⟩) ∧
    (runCalls (fun _ _ => true) [("mysql", "u"), ("mysql", "w")] ⟨[("u", 5)], 6⟩).1[0]? =
      some { db := some 5, cached := true, err := none } := by
  constructor
  · exact (handleCache_at_most_once (fun _ _ => true) "mysql" "u" ⟨[("u", 5)], 6⟩).1 5 rfl
  · exact (handleCache_at_most_once (fun _ _ => true) "mysql" "u" ⟨[("u", 5)], 6⟩).2.2.2.2
      [("mysql", "u"), ("mysql", "w")] 0 "mysql" 5 rfl rfl

/-- C9: the cache is keyed solely by the data-source-name and ignores the
driver name: after a first successful call with driver `d1` for a given
data-source-name, a later call with ANY driver `d2` (e.g. `GetDB` then
`GetSQLiteDB`) returns the very handle opened with `d1`, reports
`wasCached = true`, and opens nothing new (the state is unchanged). -/
theorem handleCache_ignores_driver (openOk : String → String → Bool) (d1 d2 dsn : String)
    (st : CacheState) (h0 : goMapLookup st.knownDBs dsn = none)
    (hop : openOk d1 dsn = true) :
    (GetGenericDB openOk d2 dsn (GetGenericDB openOk d1 dsn st).2).1.db =
      (GetGenericDB openOk d1 dsn st).1.db ∧
    (GetGenericDB openOk d2 dsn (GetGenericDB openOk d1 dsn st).2).1.cached = true ∧
    (GetGenericDB openOk d2 dsn (GetGenericDB openOk d1 dsn st).2).2 =
      (GetGenericDB openOk d1 dsn st).2 := by
  have h1 : GetGenericDB openOk d1 dsn st =
      ({ db := some st.nextHandle, cached := false, err := none },
        { knownDBs := goMapInsert st.knownDBs dsn st.nextHandle,
          nextHandle := st.nextHandle + 1 }) := by
    unfold GetGenericDB
    rw [h0]
    simp [hop]
  have h2 : goMapLookup (GetGenericDB openOk d1 dsn st).2.knownDBs dsn =
      some st.nextHandle := by
    rw [h1]
    exact goMapLookup_insert_self st.knownDBs dsn st.nextHandle
  rw [getGenericDB_hit openOk d2 dsn _ st.nextHandle h2]
  rw [h1]
  exact ⟨rfl, rfl, rfl⟩

/-- Witness for C9: `GetDB` (mysql) then `GetSQLiteDB` (sqlite3) on the same
data-source-name share one handle; the sqlite call is a cache hit. -/
theorem handleCache_ignores_driver_witness :
    (GetSQLiteDB (fun _ _ => true) "file.db" (GetDB (fun _ _ => true) "file.db" ⟨[], 0⟩).2).1.db =
      (GetDB (fun _ _ => true) "file.db" ⟨[], 0⟩).1.db ∧
    (GetSQLiteDB (fun _ _ => true) "file.db" (GetDB (fun _ _ => true) "file.db" ⟨[], 0⟩).2).1.cached =
      true ∧
    (GetSQLiteDB (fun _ _ => true) "file.db" (GetDB (fun _ _ => true) "file.db" ⟨[], 0⟩).2).2 =
      (GetDB (fun _ _ => true) "file.db" ⟨[], 0⟩).2 :=
  handleCache_ignores_driver (fun _ _ => true) "mysql" "sqlite3" "file.db" ⟨[], 0⟩ rfl rfl

/-! ## C4: table restore attempts every row, last failure wins -/

theorem writeRowsLoop_trace (execErr : Nat → Option GoError) (q : String) :
    ∀ (rows : List RowData) (i : Nat) (err : Option GoError),
    (writeRowsLoop execErr q i rows err).1 = rows.map (fun r => (q, RowData.Args r)) := by
  intro rows
  induction rows with
  | nil => intro i err; rfl
  | cons r rest ih =>
    intro i err
    simp only [writeRowsLoop, List.map_cons]
    rw [ih]

theorem writeRowsLoop_err (execErr : Nat → Option GoError) (q : String) :
    ∀ (rows : List RowData) (i : Nat) (err : Option GoError),
    (writeRowsLoop execErr q i rows err).2 =
      lastSomeList ((List.range rows.length).map (fun j => execErr (i + j))) err := by
  intro rows
  induction rows with
  | nil => intro i err; rfl
  | cons r rest ih =>
    intro i err
    have hmaps : (List.range (rest.length + 1)).map (fun j => execErr (i + j)) =
        execErr i :: (List.range rest.length).map (fun j => execErr (i + 1 + j)) := by
      rw [List.range_succ_eq_map, List.map_cons, List.map_map]
      have hf : ((fun j => execErr (i + j)) ∘ Nat.succ) = (fun j => execErr (i + 1 + j)) := by
        funext j
        simp only [Function.comp_apply]
        congr 1
        omega
      rw [hf, Nat.add_zero]
    simp only [writeRowsLoop, List.length_cons, hmaps, lastSomeList]
    rw [ih]

theorem lastSomeList_map_range (execErr : Nat → Option GoError) :
    ∀ (l : List Nat) (e : Option GoError),
    l.foldl
      (fun acc i =>
        match execErr i with
        | some x => some x
        | none => acc)
      e = lastSomeList (l.map execErr) e := by
  intro l
  induction l with
  | nil => intro e; rfl
  | cons i rest ih =>
    intro e
    simp only [List.foldl_cons, List.map_cons, lastSomeList]
    rw [ih]

/-- C4: `WriteTableContext` with an empty row list or an empty column list
executes no statements and returns success; otherwise it executes the single
replace-into template once per row, for every row in order (it does not stop
at a failing row), and returns the failure of the last row whose execution
failed — success if none failed. -/
theorem writeTable_attempts_all_rows (execErr : Nat → Option GoError)
    (tableName : String) (data : NamedResultData) :
    ((data.Data = [] ∨ data.Columns = []) →
      WriteTableContext execErr tableName data = ([], none)) ∧
    (¬ data.Data = [] → ¬ data.Columns = [] →
      (WriteTableContext execErr tableName data).1 =
        data.Data.map (fun r => (writeTableQuery tableName data.Columns, RowData.Args r)) ∧
      (WriteTableContext execErr tableName data).2 =
        lastExecFailure execErr data.Data.length) := by
  constructor
  · intro h
    unfold WriteTableContext
    rcases h with h | h <;> simp [h]
  · intro hd hc
    have hd0 : ¬ data.Data.length = 0 := by simpa [List.length_eq_zero] using hd
    have hc0 : ¬ data.Columns.length = 0 := by simpa [List.length_eq_zero] using hc
    unfold WriteTableContext
    simp only [hd0, hc0, if_false]
    refine ⟨writeRowsLoop_trace execErr _ data.Data 0 none, ?_⟩
    rw [writeRowsLoop_err execErr _ data.Data 0 none]
    unfold lastExecFailure
    rw [lastSomeList_map_range execErr (List.range data.Data.length) none]
    have hf0 : (fun j => execErr (0 + j)) = execErr := by
      funext j
      rw [Nat.zero_add]
    rw [hf0]

/-- Witness for C4: three rows with failures on the first and third; all
three statements are executed and the returned error is the third row's. -/
theorem writeTable_attempts_all_rows_witness :
    (WriteTableContext
        (fun i => if i = 0 then some (GoError.other "e0")
          else if i = 2 then some (GoError.other "e2") else none)
        "t" ⟨["c"], [[⟨"1", true⟩], [⟨"2", true⟩], [⟨"3", false⟩]]⟩).1.length = 3 ∧
    (WriteTableContext
        (fun i => if i = 0 then some (GoError.other "e0")
          else if i = 2 then some (GoError.other "e2") else none)
        "t" ⟨["c"], [[⟨"1", true⟩], [⟨"2", true⟩], [⟨"3", false⟩]]⟩).2 =
      some (GoError.other "e2") := by
  have h := (writeTable_attempts_all_rows
    (fun i => if i = 0 then some (GoError.other "e0")
      else if i = 2 then some (GoError.other "e2") else none)
    "t" ⟨["c"], [[⟨"1", true⟩], [⟨"2", true⟩], [⟨"3", false⟩]]⟩).2
    (by decide) (by decide)
  refine ⟨?_, ?_⟩
  · rw [h.1]
    rfl
  · rw [h.2]
    rfl

/-! ## Scan pipeline lemmas (C10, C2, C5) -/

theorem RowToArray_length (cols : List String) (rec : List (Option String)) :
    (RowToArray cols rec).length = cols.length := by
  unfold RowToArray
  split
  · rename_i h
    simp [h]
  · simp

theorem rowToMapGo_isSome : ∀ (row : List CellData) (cols : List String) (m : RowMap),
    row.length ≤ cols.length → (rowToMapGo m row cols).isSome = true := by
  intro row
  induction row with
  | nil => intro cols m _; rfl
  | cons c rrest ih =>
    intro cols m hle
    cases cols with
    | nil => simp at hle
    | cons col crest => exact ih crest (goMapInsert m col c) (by simpa using hle)

theorem rowToMap_isSome (row : List CellData) (cols : List String)
    (h : row.length ≤ cols.length) : (rowToMap row cols).isSome = true :=
  rowToMapGo_isSome row cols [] h

theorem convertPanic_none (fname : String) : convertPanic fname none = none := rfl

theorem scanLoop_all_none (cols : List String) (on_row : List CellData → Option GoError) :
    ∀ recs, (∀ rec ∈ recs, on_row (RowToArray cols rec) = none) →
    scanLoop cols on_row recs = (recs.map (RowToArray cols), none) := by
  intro recs
  induction recs with
  | nil => intro _; rfl
  | cons rec rest ih =>
    intro h
    have h0 : on_row (RowToArray cols rec) = none := h rec (by simp)
    have hr := ih (fun r hr => h r (by simp [hr]))
    simp only [scanLoop, h0, hr, List.map_cons]

theorem scanLoop_buffered (cols : List String) (on_row : RowMap → Option GoError) :
    ∀ recs : List (List (Option String)),
    (scanLoop cols (mapSink cols on_row) recs).1.filterMap (fun arr => rowToMap arr cols) =
      (bufferedLoop on_row cols (recs.map (RowToArray cols))).1 ∧
    (scanLoop cols (mapSink cols on_row) recs).2 =
      (bufferedLoop on_row cols (recs.map (RowToArray cols))).2 := by
  intro recs
  induction recs with
  | nil => exact ⟨rfl, rfl⟩
  | cons rec rest ih =>
    obtain ⟨m, hm⟩ : ∃ m, rowToMap (RowToArray cols rec) cols = some m :=
      Option.isSome_iff_exists.mp
        (rowToMap_isSome _ _ (le_of_eq (RowToArray_length cols rec)))
    simp only [scanLoop, List.map_cons, bufferedLoop, mapSink, hm]
    cases h : on_row m with
    | some e => simp [List.filterMap_cons, hm]
    | none =>
      refine ⟨?_, ih.2⟩
      simp [List.filterMap_cons, hm, ih.1]

theorem scanRowsToMaps_all_none (rows : Rows) (on_row : RowMap → Option GoError)
    (h : ∀ m, on_row m = none) :
    ScanRowsToMaps rows on_row =
      ((rows.recs.map (RowToArray (goColumns rows))).filterMap
        (fun arr => rowToMap arr (goColumns rows)), none) := by
  unfold ScanRowsToMaps ScanRowsToArrays
  have hs : ∀ rec ∈ rows.recs,
      mapSink (goColumns rows) on_row (RowToArray (goColumns rows) rec) = none := by
    intro rec _
    unfold mapSink
    obtain ⟨m, hm⟩ := Option.isSome_iff_exists.mp
      (rowToMap_isSome _ _ (le_of_eq (RowToArray_length (goColumns rows) rec)))
    rw [hm]
    exact h m
  simp only [scanLoop_all_none _ _ rows.recs hs]

theorem map_eq_filterMap_some (cols : List String) :
    ∀ (l : ResultData), (∀ row ∈ l, (rowToMap row cols).isSome = true) →
    l.map (fun row => rowToMap row cols) =
      (l.filterMap (fun row => rowToMap row cols)).map some := by
  intro l
  induction l with
  | nil => intro _; rfl
  | cons row rest ih =>
    intro h
    obtain ⟨m, hm⟩ := Option.isSome_iff_exists.mp (h row (by simp))
    have hr := ih (fun r hrr => h r (by simp [hrr]))
    simp [hm, hr, List.filterMap_cons]

/-! ## C10: scan and column-retrieval errors are discarded -/

/-- C10: the pipeline never surfaces driver scan or column-retrieval errors.
`RowToArray` discards the `rows.Scan` error, so a record whose scan fails
comes back as a row of absent cells of the column count; a failing
`rows.Columns()` is discarded and yields the empty column list; and with a
never-failing sink the scan delivers every record and reports success. -/
theorem scanPipeline_discards_driver_errors (cols : List String)
    (rec : List (Option String)) (rows : Rows)
    (on_row : List CellData → Option GoError) (on_rowM : RowMap → Option GoError) :
    (¬ rec.length = cols.length →
      RowToArray cols rec = List.replicate cols.length ⟨"", false⟩) ∧
    (rows.colsErr = true → goColumns rows = []) ∧
    ((∀ r, on_row r = none) →
      ScanRowsToArrays rows on_row = (rows.recs.map (RowToArray (goColumns rows)), none)) ∧
    ((∀ m, on_rowM m = none) → (ScanRowsToMaps rows on_rowM).2 = none) := by
  refine ⟨?_, ?_, ?_, ?_⟩
  · intro h
    unfold RowToArray
    rw [if_neg h]
  · intro h
    unfold goColumns
    rw [h]
    rfl
  · intro h
    unfold ScanRowsToArrays
    exact scanLoop_all_none _ _ rows.recs (fun r _ => h _)
  · intro h
    rw [scanRowsToMaps_all_none rows on_rowM h]

/-- Witness for C10: a two-value record scanned against a one-column cursor
yields one absent cell; a cursor whose `Columns()` fails still delivers its
record (as a zero-length row) and the scan succeeds. -/
theorem scanPipeline_discards_driver_errors_witness :
    RowToArray ["a"] [some "1", some "2"] = [⟨"", false⟩] ∧
    ScanRowsToArrays ⟨["a"], true, [[some "x"]]⟩ (fun _ => none) = ([[]], none) := by
  have h := scanPipeline_discards_driver_errors ["a"] [some "1", some "2"]
    ⟨["a"], true, [[some "x"]]⟩ (fun _ => none) (fun _ => none)
  refine ⟨?_, ?_⟩
  · have h1 := h.1 (by decide)
    simpa using h1
  · exact h.2.2.1 (fun r => rfl)

/-! ## C2: the three query strategies agree -/

/-- C2: for every driver outcome and sink, the streaming strategy
(`QueryRowsMapContext`) and the buffered strategy
(`QueryRowsMapBufferedContext`) deliver exactly the same named rows in the
same order; and whenever the sink never fails, pairing the bulk strategy's
positional rows (`queryResultDataContext`) with the column names it returns
reproduces exactly the named rows the callback strategies delivered. -/
theorem queryStrategies_equivalent (q : QueryOutcome) (on_row : RowMap → Option GoError) :
    (QueryRowsMapContext q on_row).1 = (QueryRowsMapBufferedContext q on_row).1 ∧
    ((∀ m, on_row m = none) →
      (queryResultDataContext q true).resultData.map
        (fun row => rowToMap row (queryResultDataContext q true).columns) =
      ((QueryRowsMapContext q on_row).1).map some) := by
  cases q with
  | fail e =>
    constructor
    · by_cases he : e = GoError.errNoRows
      · subst he
        rfl
      · simp [QueryRowsMapContext, QueryRowsMapBufferedContext, queryResultDataContext,
          he, logErrore]
    · intro _
      by_cases he : e = GoError.errNoRows
      · subst he
        rfl
      · simp [QueryRowsMapContext, queryResultDataContext, he]
  | ok rows =>
    have hs := scanLoop_all_none (goColumns rows) (fun _ => none) rows.recs (fun r _ => rfl)
    constructor
    · have hb := scanLoop_buffered (goColumns rows) on_row rows.recs
      simp only [QueryRowsMapContext, QueryRowsMapBufferedContext, queryResultDataContext,
        ScanRowsToMaps, ScanRowsToArrays, hs, convertPanic_none, if_true]
      exact hb.1
    · intro hnone
      have hmaps := scanRowsToMaps_all_none rows on_row hnone
      have hsome : ∀ row ∈ rows.recs.map (RowToArray (goColumns rows)),
          (rowToMap row (goColumns rows)).isSome = true := by
        intro row hrow
        obtain ⟨rec, -, hrr⟩ := List.mem_map.mp hrow
        rw [← hrr]
        exact rowToMap_isSome _ _ (le_of_eq (RowToArray_length _ _))
      have hmm := map_eq_filterMap_some (goColumns rows)
        (rows.recs.map (RowToArray (goColumns rows))) hsome
      simp only [QueryRowsMapContext, queryResultDataContext, ScanRowsToArrays, hs, hmaps,
        convertPanic_none, if_true]
      exact hmm

/-- Witness for C2: on a concrete two-row cursor with a never-failing sink,
the streaming and buffered traces coincide and match the bulk rows paired
with the bulk column names. -/
theorem queryStrategies_equivalent_witness :
    (QueryRowsMapContext witnessQuery (fun _ => none)).1 =
      (QueryRowsMapBufferedContext witnessQuery (fun _ => none)).1 ∧
    (queryResultDataContext witnessQuery true).resultData.map
        (fun row => rowToMap row (queryResultDataContext witnessQuery true).columns) =
      ((QueryRowsMapContext witnessQuery (fun _ => none)).1).map some :=
  ⟨(queryStrategies_equivalent witnessQuery (fun _ => none)).1,
    (queryStrategies_equivalent witnessQuery (fun _ => none)).2 (fun _ => rfl)⟩

/-! ## C5: query-failure propagation -/

/-- C5 counterexample: when the driver query fails with `other "boom"`, the
bulk strategy does NOT return that query failure: the deferred close of the
nil cursor panics and the recover boundary returns a different, converted
error. -/
theorem bulkQuery_error_converted_counterexample :
    (queryResultDataContext (QueryOutcome.fail (GoError.other "boom")) true).err =
      some (GoError.converted ("queryResultDataContext unexpected error: " ++ nilDerefMsg)) ∧
    ¬ (queryResultDataContext (QueryOutcome.fail (GoError.other "boom")) true).err =
      some (GoError.other "boom") :=
  ⟨rfl, by decide⟩

/-- C5 (amended): on a driver query failure other than the no-rows condition,
no strategy invokes its sink; the STREAMING strategy returns that query
failure unchanged, while the bulk and buffered strategies return a
converted unexpected-error failure instead of the query error (the deferred
close of the nil cursor panics and is recovered).  A query matching zero
rows is success with an empty result for all three strategies. -/
theorem queryFailure_propagation (e : GoError) (he : ¬ e = GoError.errNoRows)
    (rows : Rows) (hr : rows.recs = []) (on_row : RowMap → Option GoError) (b : Bool) :
    QueryRowsMapContext (QueryOutcome.fail e) on_row = ([], some e) ∧
    queryResultDataContext (QueryOutcome.fail e) b =
      { resultData := [], columns := [],
        err := some (GoError.converted
          ("queryResultDataContext unexpected error: " ++ nilDerefMsg)) } ∧
    QueryRowsMapBufferedContext (QueryOutcome.fail e) on_row =
      ([], some (GoError.converted
        ("queryResultDataContext unexpected error: " ++ nilDerefMsg))) ∧
    QueryRowsMapContext (QueryOutcome.ok rows) on_row = ([], none) ∧
    (queryResultDataContext (QueryOutcome.ok rows) b).resultData = [] ∧
    (queryResultDataContext (QueryOutcome.ok rows) b).err = none ∧
    QueryRowsMapBufferedContext (QueryOutcome.ok rows) on_row = ([], none) := by
  refine ⟨?_, rfl, rfl, ?_, ?_, ?_, ?_⟩
  · simp [QueryRowsMapContext, he, logErrore]
  · simp [QueryRowsMapContext, ScanRowsToMaps, ScanRowsToArrays, hr, scanLoop,
      convertPanic_none]
  · simp [queryResultDataContext, ScanRowsToArrays, hr, scanLoop]
  · simp [queryResultDataContext, ScanRowsToArrays, hr, scanLoop, convertPanic_none]
  · simp [QueryRowsMapBufferedContext, queryResultDataContext, ScanRowsToArrays, hr,
      scanLoop, convertPanic_none, bufferedLoop]

/-- Witness for C5: a concrete non-no-rows failure is returned unchanged by
the streaming strategy, and a concrete zero-row cursor yields success. -/
theorem queryFailure_propagation_witness :
    QueryRowsMapContext (QueryOutcome.fail (GoError.other "x")) (fun _ => none) =
      ([], some (GoError.other "x")) ∧
    QueryRowsMapContext (QueryOutcome.ok ⟨["a"], false, []⟩) (fun _ => none) =
      ([], none) := by
  have h := queryFailure_propagation (GoError.other "x") (by decide)
    ⟨["a"], false, []⟩ rfl (fun _ => none) true
  exact ⟨h.1, h.2.2.2.1⟩

/-! ## C7: unsigned typed getters -/

theorem decimalFold_mono (cs : List Char) : ∀ n : Nat, n ≤ cs.foldl decimalStep n := by
  induction cs with
  | nil => intro n; exact le_refl n
  | cons c rest ih =>
    intro n
    have h1 : n ≤ decimalStep n c := by
      have h2 : n ≤ n * 10 := Nat.le_mul_of_pos_right n (by norm_num)
      unfold decimalStep
      omega
    exact le_trans h1 (ih (decimalStep n c))

theorem parseUintLoop_ok (cs : List Char) : ∀ n : Nat, (∀ c ∈ cs, c.isDigit = true) →
    cs.foldl decimalStep n ≤ maxUint64 →
    parseUintLoop cs n = (cs.foldl decimalStep n, none) := by
  induction cs with
  | nil => intro n _ _; rfl
  | cons c rest ih =>
    intro n hd hle
    have hc : c.isDigit = true := hd c (by simp)
    have hfold : (c :: rest).foldl decimalStep n = rest.foldl decimalStep (decimalStep n c) :=
      rfl
    have hmono : decimalStep n c ≤ rest.foldl decimalStep (decimalStep n c) :=
      decimalFold_mono rest _
    have hn1le : decimalStep n c ≤ maxUint64 := le_trans hmono (hfold ▸ hle)
    have hstep : decimalStep n c = n * 10 + (c.toNat - 48) := rfl
    have hcutmul : maxUint64 < uintCutoff * 10 := by norm_num [uintCutoff, maxUint64]
    have hcut : ¬ uintCutoff ≤ n := by
      intro hcut
      have h10 : uintCutoff * 10 ≤ n * 10 := Nat.mul_le_mul_right 10 hcut
      omega
    have hov : ¬ maxUint64 < n * 10 + (c.toNat - 48) := by omega
    simp only [parseUintLoop, hc, if_true, hcut, if_false, hov]
    rw [hfold]
    exact ih (decimalStep n c) (fun x hx => hd x (by simp [hx])) (hfold ▸ hle)

theorem parseUintLoop_overflow (cs : List Char) : ∀ n : Nat, (∀ c ∈ cs, c.isDigit = true) →
    n ≤ maxUint64 → maxUint64 < cs.foldl decimalStep n →
    parseUintLoop cs n = (maxUint64, some ParseErr.rangeErr) := by
  induction cs with
  | nil =>
    intro n _ hle hlt
    exact absurd hlt (Nat.not_lt.mpr hle)
  | cons c rest ih =>
    intro n hd hle hlt
    have hc : c.isDigit = true := hd c (by simp)
    by_cases hcut : uintCutoff ≤ n
    · simp [parseUintLoop, hc, hcut]
    · have hstep : decimalStep n c = n * 10 + (c.toNat - 48) := rfl
      by_cases hov : maxUint64 < n * 10 + (c.toNat - 48)
      · simp [parseUintLoop, hc, hcut, hov]
      · simp only [parseUintLoop, hc, if_true, hcut, if_false, hov]
        have hfold : (c :: rest).foldl decimalStep n =
            rest.foldl decimalStep (decimalStep n c) := rfl
        rw [show parseUintLoop rest (n * 10 + (c.toNat - 48)) =
          parseUintLoop rest (decimalStep n c) from rfl]
        exact ih (decimalStep n c) (fun x hx => hd x (by simp [hx]))
          (by omega) (hfold ▸ hlt)

theorem ParseUint_empty (s : String) (h : s.data = []) :
    ParseUint s = (0, some ParseErr.synErr) := by
  simp [ParseUint, h]

theorem ParseUint_digits (s : String) (cs : List Char) (h : s.data = cs) (hne : ¬ cs = [])
    (hd : ∀ c ∈ cs, c.isDigit = true) (hle : decimalVal cs ≤ maxUint64) :
    ParseUint s = (decimalVal cs, none) := by
  unfold ParseUint
  rw [h]
  cases cs with
  | nil => exact absurd rfl hne
  | cons c rest =>
    show parseUintLoop (c :: rest) 0 = _
    exact parseUintLoop_ok (c :: rest) 0 hd hle

theorem ParseUint_overflow (s : String) (cs : List Char) (h : s.data = cs)
    (hd : ∀ c ∈ cs, c.isDigit = true) (hlt : maxUint64 < decimalVal cs) :
    ParseUint s = (maxUint64, some ParseErr.rangeErr) := by
  unfold ParseUint
  rw [h]
  cases cs with
  | nil => exact absurd hlt (by simp [decimalVal, maxUint64])
  | cons c rest =>
    show parseUintLoop (c :: rest) 0 = _
    exact parseUintLoop_overflow (c :: rest) 0 hd (by norm_num [maxUint64]) hlt

theorem ParseUint_first_nondigit (s : String) (c : Char) (rest : List Char)
    (h : s.data = c :: rest) (hc : c.isDigit = false) :
    ParseUint s = (0, some ParseErr.synErr) := by
  unfold ParseUint
  rw [h]
  show parseUintLoop (c :: rest) 0 = _
  simp [parseUintLoop, hc]

theorem isDigit_ne_minus (c : Char) (hc : c.isDigit = true) : ¬ c = '-' := by
  intro e
  subst e
  exact absurd hc (by decide)

theorem isDigit_ne_plus (c : Char) (hc : c.isDigit = true) : ¬ c = '+' := by
  intro e
  subst e
  exact absurd hc (by decide)

theorem ParseInt_empty (s : String) (h : s.data = []) :
    ParseInt s = (0, some ParseErr.synErr) := by
  simp [ParseInt, h]

theorem ParseInt_first_nondigit (s : String) (c : Char) (rest : List Char)
    (h : s.data = c :: rest) (hc : c.isDigit = false) (hm : ¬ c = '-') (hp : ¬ c = '+') :
    ParseInt s = (0, some ParseErr.synErr) := by
  unfold ParseInt
  rw [h]
  have hloop : parseUintLoop (c :: rest) 0 = (0, some ParseErr.synErr) := by
    simp [parseUintLoop, hc]
  simp [hm, hp, hloop]

theorem ParseInt_pos_ok (s : String) (cs : List Char) (h : s.data = cs) (hne : ¬ cs = [])
    (hd : ∀ c ∈ cs, c.isDigit = true) (hlt : decimalVal cs < 2 ^ 63) :
    ParseInt s = ((decimalVal cs : Int), none) := by
  unfold ParseInt
  rw [h]
  cases cs with
  | nil => exact absurd rfl hne
  | cons c rest =>
    have hc : c.isDigit = true := hd c (by simp)
    have hm : ¬ c = '-' := isDigit_ne_minus c hc
    have hp : ¬ c = '+' := isDigit_ne_plus c hc
    have hle : decimalVal (c :: rest) ≤ maxUint64 := by
      have : (2:Nat) ^ 63 ≤ maxUint64 := by norm_num [maxUint64]
      omega
    have hloop : parseUintLoop (c :: rest) 0 = (decimalVal (c :: rest), none) :=
      parseUintLoop_ok (c :: rest) 0 hd hle
    have hnotge : ¬ 2 ^ 63 ≤ decimalVal (c :: rest) := Nat.not_le.mpr hlt
    simp [hm, hp, hloop, hnotge]
    omega

theorem ParseInt_pos_range (s : String) (cs : List Char) (h : s.data = cs) (hne : ¬ cs = [])
    (hd : ∀ c ∈ cs, c.isDigit = true) (hge : 2 ^ 63 ≤ decimalVal cs) :
    ParseInt s = ((((2 : Nat) ^ 63 - 1 : Nat) : Int), some ParseErr.rangeErr) := by
  unfold ParseInt
  rw [h]
  cases cs with
  | nil => exact absurd rfl hne
  | cons c rest =>
    have hc : c.isDigit = true := hd c (by simp)
    have hm : ¬ c = '-' := isDigit_ne_minus c hc
    have hp : ¬ c = '+' := isDigit_ne_plus c hc
    by_cases hbig : maxUint64 < decimalVal (c :: rest)
    · have hloop : parseUintLoop (c :: rest) 0 = (maxUint64, some ParseErr.rangeErr) :=
        parseUintLoop_overflow (c :: rest) 0 hd (by norm_num [maxUint64]) hbig
      have hm64 : maxUint64 = 18446744073709551615 := by norm_num [maxUint64]
      simp [hm, hp, hloop]
      omega
    · have hloop : parseUintLoop (c :: rest) 0 = (decimalVal (c :: rest), none) :=
        parseUintLoop_ok (c :: rest) 0 hd (Nat.not_lt.mp hbig)
      simp [hm, hp, hloop]
      omega

theorem ParseInt_neg_ok (s : String) (cs : List Char) (h : s.data = '-' :: cs)
    (hne : ¬ cs = []) (hd : ∀ c ∈ cs, c.isDigit = true)
    (hle : decimalVal cs ≤ 2 ^ 63) :
    ParseInt s = (-(decimalVal cs : Int), none) := by
  unfold ParseInt
  rw [h]
  cases cs with
  | nil => exact absurd rfl hne
  | cons c rest =>
    have hbound : decimalVal (c :: rest) ≤ maxUint64 := by
      have : (2:Nat) ^ 63 ≤ maxUint64 := by norm_num [maxUint64]
      omega
    have hloop : parseUintLoop (c :: rest) 0 = (decimalVal (c :: rest), none) :=
      parseUintLoop_ok (c :: rest) 0 hd hbound
    have hnotgt : ¬ 2 ^ 63 < decimalVal (c :: rest) := Nat.not_lt.mpr hle
    simp [hloop, hnotgt]
    omega

theorem uintOfInt_natCast (v : Nat) (h : v < 2 ^ 64) : uintOfInt (v : Int) = v := by
  unfold uintOfInt
  have h64 : (2 : Int) ^ 64 = 18446744073709551616 := by norm_num
  have h64n : (2 : Nat) ^ 64 = 18446744073709551616 := by norm_num
  rw [h64]
  rw [h64n] at h
  omega

theorem uintOfInt_neg (v : Nat) (h0 : 0 < v) (h1 : v ≤ 2 ^ 64) :
    uintOfInt (-(v : Int)) = 2 ^ 64 - v := by
  unfold uintOfInt
  have h64 : (2 : Int) ^ 64 = 18446744073709551616 := by norm_num
  have h64n : (2 : Nat) ^ 64 = 18446744073709551616 := by norm_num
  rw [h64, h64n]
  rw [h64n] at h1
  omega

theorem GetString_missing (m : RowMap) (key : String) (h : goMapLookup m key = none) :
    RowMap.GetString m key = "" := by
  unfold RowMap.GetString goMapGet
  rw [h]

theorem GetUint64D_of_fail (m : RowMap) (key : String) (dflt : Nat) (e : ParseErr)
    (h : (ParseUint (RowMap.GetString m key)).2 = some e) :
    RowMap.GetUint64D m key dflt = dflt := by
  simp [RowMap.GetUint64D, h]

theorem GetUint64D_of_ok (m : RowMap) (key : String) (dflt v : Nat)
    (h : ParseUint (RowMap.GetString m key) = (v, none)) :
    RowMap.GetUint64D m key dflt = v := by
  simp [RowMap.GetUint64D, h]

theorem GetUintD_of_fail (m : RowMap) (key : String) (dflt : Nat) (e : ParseErr)
    (h : (ParseInt (RowMap.GetString m key)).2 = some e) :
    RowMap.GetUintD m key dflt = dflt := by
  simp [RowMap.GetUintD, Atoi, h]

theorem GetUintD_of_ok (m : RowMap) (key : String) (dflt : Nat) (x : Int)
    (h : ParseInt (RowMap.GetString m key) = (x, none)) :
    RowMap.GetUintD m key dflt = uintOfInt x := by
  simp [RowMap.GetUintD, Atoi, h]

/-- C7 counterexample: the cell text `"-5"` fails the unsigned parse, yet
`GetUintD` with default 7 does not return 7: it parses the text with the
SIGNED `strconv.Atoi` and converts through `uint`, returning the wrapped
value `2^64 - 5`. -/
theorem getUintD_negative_counterexample :
    RowMap.GetUintD [("k", ⟨"-5", true⟩)] "k" 7 = 2 ^ 64 - 5 ∧
    ¬ (2 ^ 64 - 5 : Nat) = 7 ∧
    (ParseUint "-5").2 = some ParseErr.synErr := by
  refine ⟨by decide, by norm_num, rfl⟩

/-- C7 (amended): the unsigned getters never return an error, and on a
missing key, empty text, or text whose first character is neither a digit
nor a sign they return zero (`GetUint`, `GetUint64`) or the caller default
(`GetUintD`, `GetUint64D`); for in-range digit text all four return its
value, EXCEPT that `GetUintD` — which parses with the signed `strconv.Atoi`
— returns the default for unsigned values at or above `2^63`; for negative
text `-v` (0 < v ≤ 2^63) the ParseUint-based getters return zero/default but
`GetUintD` returns the wrapped value `2^64 - v`, NOT the default; and for
digit text at or above `2^64`, `GetUint`/`GetUint64` return the clamped
maximum `2^64 - 1` (range error discarded), not zero, while the
default-taking getters return the default. -/
theorem unsignedGetters_amended (m : RowMap) (key : String) (dflt : Nat) :
    (goMapLookup m key = none →
      RowMap.GetUint m key = 0 ∧ RowMap.GetUint64 m key = 0 ∧
      RowMap.GetUintD m key dflt = dflt ∧ RowMap.GetUint64D m key dflt = dflt) ∧
    (RowMap.GetString m key = "" →
      RowMap.GetUint m key = 0 ∧ RowMap.GetUint64 m key = 0 ∧
      RowMap.GetUintD m key dflt = dflt ∧ RowMap.GetUint64D m key dflt = dflt) ∧
    (∀ c rest, (RowMap.GetString m key).data = c :: rest →
      c.isDigit = false → ¬ c = '-' → ¬ c = '+' →
      RowMap.GetUint m key = 0 ∧ RowMap.GetUint64 m key = 0 ∧
      RowMap.GetUintD m key dflt = dflt ∧ RowMap.GetUint64D m key dflt = dflt) ∧
    (∀ cs, (RowMap.GetString m key).data = cs → ¬ cs = [] →
      (∀ ch ∈ cs, ch.isDigit = true) → decimalVal cs < 2 ^ 64 →
      RowMap.GetUint m key = decimalVal cs ∧
      RowMap.GetUint64 m key = decimalVal cs ∧
      RowMap.GetUint64D m key dflt = decimalVal cs ∧
      (decimalVal cs < 2 ^ 63 → RowMap.GetUintD m key dflt = decimalVal cs) ∧
      (2 ^ 63 ≤ decimalVal cs → RowMap.GetUintD m key dflt = dflt)) ∧
    (∀ cs, (RowMap.GetString m key).data = '-' :: cs → ¬ cs = [] →
      (∀ ch ∈ cs, ch.isDigit = true) → 0 < decimalVal cs → decimalVal cs ≤ 2 ^ 63 →
      RowMap.GetUint m key = 0 ∧ RowMap.GetUint64 m key = 0 ∧
      RowMap.GetUint64D m key dflt = dflt ∧
      RowMap.GetUintD m key dflt = 2 ^ 64 - decimalVal cs) ∧
    (∀ cs, (RowMap.GetString m key).data = cs →
      (∀ ch ∈ cs, ch.isDigit = true) → 2 ^ 64 ≤ decimalVal cs →
      RowMap.GetUint m key = maxUint64 ∧ RowMap.GetUint64 m key = maxUint64 ∧
      RowMap.GetUint64D m key dflt = dflt ∧ RowMap.GetUintD m key dflt = dflt) := by
  have hmax64 : maxUint64 = 2 ^ 64 - 1 := rfl
  refine ⟨?_, ?_, ?_, ?_, ?_, ?_⟩
  · intro h
    have hs : RowMap.GetString m key = "" := GetString_missing m key h
    have hdata : (RowMap.GetString m key).data = [] := by rw [hs]
    have hU := ParseUint_empty _ hdata
    have hI := ParseInt_empty _ hdata
    exact ⟨by simp [RowMap.GetUint, hU], by simp [RowMap.GetUint64, hU],
      GetUintD_of_fail m key dflt _ (by rw [hI]),
      GetUint64D_of_fail m key dflt _ (by rw [hU])⟩
  · intro hs
    have hdata : (RowMap.GetString m key).data = [] := by rw [hs]
    have hU := ParseUint_empty _ hdata
    have hI := ParseInt_empty _ hdata
    exact ⟨by simp [RowMap.GetUint, hU], by simp [RowMap.GetUint64, hU],
      GetUintD_of_fail m key dflt _ (by rw [hI]),
      GetUint64D_of_fail m key dflt _ (by rw [hU])⟩
  · intro c rest hdata hc hm hp
    have hU := ParseUint_first_nondigit _ c rest hdata hc
    have hI := ParseInt_first_nondigit _ c rest hdata hc hm hp
    exact ⟨by simp [RowMap.GetUint, hU], by simp [RowMap.GetUint64, hU],
      GetUintD_of_fail m key dflt _ (by rw [hI]),
      GetUint64D_of_fail m key dflt _ (by rw [hU])⟩
  · intro cs hdata hne hd hlt
    have hle : decimalVal cs ≤ maxUint64 := by omega
    have hU := ParseUint_digits _ cs hdata hne hd hle
    refine ⟨by simp [RowMap.GetUint, hU], by simp [RowMap.GetUint64, hU],
      GetUint64D_of_ok m key dflt _ hU, ?_, ?_⟩
    · intro hsmall
      have hI := ParseInt_pos_ok _ cs hdata hne hd hsmall
      have hx := GetUintD_of_ok m key dflt _ hI
      rw [hx]
      exact uintOfInt_natCast _ hlt
    · intro hbig
      have hI := ParseInt_pos_range _ cs hdata hne hd hbig
      exact GetUintD_of_fail m key dflt _ (by rw [hI])
  · intro cs hdata hne hd h0 hle
    have hU := ParseUint_first_nondigit _ '-' cs hdata (by decide)
    have hI := ParseInt_neg_ok _ cs hdata hne hd hle
    refine ⟨by simp [RowMap.GetUint, hU], by simp [RowMap.GetUint64, hU],
      GetUint64D_of_fail m key dflt _ (by rw [hU]), ?_⟩
    have hx := GetUintD_of_ok m key dflt _ hI
    rw [hx]
    have h64 : decimalVal cs ≤ 2 ^ 64 := by
      have : (2:Nat) ^ 63 ≤ 2 ^ 64 := by norm_num
      omega
    exact uintOfInt_neg _ h0 h64
  · intro cs hdata hd hge
    have hlt : maxUint64 < decimalVal cs := by omega
    have hge63 : 2 ^ 63 ≤ decimalVal cs := by
      have : (2:Nat) ^ 63 ≤ 2 ^ 64 := by norm_num
      omega
    have hne : ¬ cs = [] := by
      intro e
      subst e
      simp [decimalVal] at hge
    have hU := ParseUint_overflow _ cs hdata hd hlt
    have hI := ParseInt_pos_range _ cs hdata hne hd hge63
    exact ⟨by simp [RowMap.GetUint, hU], by simp [RowMap.GetUint64, hU],
      GetUint64D_of_fail m key dflt _ (by rw [hU]),
      GetUintD_of_fail m key dflt _ (by rw [hI])⟩

/-- Witness for C7: the negative text `"-5"` with default 7 makes `GetUintD`
return the wrapped value `2^64 - 5`, while `GetUint` returns 0 and
`GetUint64D` returns the default. -/
theorem unsignedGetters_amended_witness :
    RowMap.GetUintD [("k", ⟨"-5", true⟩)] "k" 7 = 2 ^ 64 - decimalVal ['5'] ∧
    RowMap.GetUint [("k", ⟨"-5", true⟩)] "k" = 0 ∧
    RowMap.GetUint64D [("k", ⟨"-5", true⟩)] "k" 7 = 7 := by
  have h := (unsignedGetters_amended [("k", ⟨"-5", true⟩)] "k" 7).2.2.2.2.1 ['5']
    rfl (by decide) (by decide) (by decide) (by decide)
  exact ⟨h.2.2.2, h.1, h.2.2.1⟩

end sqlutils
